import Mathlib

/-!
# Verification of the go-bindle signing subsystem

A shallow embedding of the signing and verification engine of the
`deislabs/go-bindle` client (packages `types` and `keyring`), together with
proofs of the specification's claims about it.

Modelling conventions:
* Go slices become `List`; a `nil` slice and an empty slice are both `[]`
  (the only place the code distinguishes them, the `i.Signature == nil`
  check in `GenerateSignature`, assigns `[]` before appending, so the two
  collapse).
* Go `map[string]string` fields become association lists; they are never
  read by the signing engine.
* Bytes are `Nat`s; byte strings are `List Nat`.
* `time.Now()` is passed in as an explicit `timestamp : Int` parameter
  (its Unix value), since the engine only ever uses `timestamp.Unix()`.
* `crypto/ed25519` is an external library, modelled symbolically:
  `edSign`/`edPub`/`edVerify` form a deterministic signature scheme in
  which verification succeeds exactly on honestly produced signatures.
  The engine's claims only depend on this functional contract.
* `encoding/base64` (`StdEncoding`) is modelled faithfully, including the
  two behaviours of Go's `DecodeString` that matter here: `\r` and `\n`
  are ignored anywhere in the input, and decoding is non-strict (trailing
  padding bits are not checked).
* A Go runtime panic (the out-of-range index `Authors[0]`) is a distinct
  outcome `panicked`, separate from a returned `error`.
-/

namespace Bindle

/-! ## Data model (`types/types.go`) -/

/-- `types.Label`: metadata of a stored parcel. -/
structure Label where
  SHA256 : String
  MediaType : String
  Name : String
  Size : Nat
  Annotations : List (String × String)
  Feature : List (String × List (String × String))
  deriving DecidableEq, Repr

/-- `types.Condition`: associates parcels to groups. -/
structure Condition where
  MemberOf : List String
  Requires : List String
  deriving DecidableEq, Repr

/-- `types.Parcel`: a stored parcel description. -/
structure Parcel where
  Label : Label
  Conditions : Option Condition
  deriving DecidableEq, Repr

/-- `types.BindleSpec`: identity and metadata of a bindle. -/
structure BindleSpec where
  Name : String
  Version : String
  Description : Option String
  Authors : List String
  deriving DecidableEq, Repr

/-- `types.Group`: a top-level organization object. -/
structure Group where
  Name : String
  Required : Option Bool
  SatisfiedBy : Option String
  deriving DecidableEq, Repr

/-- `types.Signature`: an attestation appended to an invoice. -/
structure Signature where
  By : String
  Signature : String
  Key : String
  Role : String
  At : Int
  deriving DecidableEq, Repr

/-- `types.Invoice`: the main structure for a Bindle invoice. -/
structure Invoice where
  BindleVersion : String
  Yanked : Option Bool
  Bindle : BindleSpec
  Annotations : List (String × String)
  Signature : List Signature
  Parcel : List Parcel
  Group : List Group
  deriving DecidableEq, Repr

/-- `types.SignatureKey`: a public key bound to an author identity and a
set of authorized roles.  Modelled from the spec: the struct definition is
not under `src/`, but its exact field set `{Label, Roles, Key,
LabelSignature}` is fixed by the composite literal in
`keyring.GenerateSignatureKey` and by the spec's §3 data model.  It holds
no private-key field. -/
structure SignatureKey where
  Label : String
  Roles : List String
  Key : String
  LabelSignature : String
  deriving DecidableEq, Repr

/-! ## Roles (`types/signature.go`, constants block) -/

def RoleCreator : String := "creator"
def RoleApprover : String := "approver"
def RoleProxy : String := "proxy"
def RoleHost : String := "host"

/-- `types.ValidRoles`: the role map literal, all four roles mapped to
`true`. -/
def ValidRoles : List (String × Bool) :=
  [(RoleCreator, true), (RoleApprover, true), (RoleProxy, true), (RoleHost, true)]

/-- The Go map read `exists, val := ValidRoles[role]` followed by the test
`!(!exists || !val)`, i.e. `exists && val`. -/
def roleIsValid (role : String) : Bool :=
  (ValidRoles.lookup role).getD false

/-- Errors of the engine.  The first four are the `errors.New` values in
`types/signature.go` plus base64's `CorruptInputError`; the last two are
the verification errors named by the spec's §7 taxonomy. -/
inductive BindleError where
  | errInvalidRole
  | errAuthorNotExist
  | errSignatureKeyRoleMismatch
  | decodingError
  | unknownKeyError
  | invalidSignatureError
  deriving DecidableEq, Repr

/-- Outcome of an engine call on an invoice: normal return without error,
a returned `error`, or a Go runtime panic. -/
inductive OpResult where
  | ok
  | err (e : BindleError)
  | panicked
  deriving DecidableEq, Repr

/-! ## base64 (`encoding/base64` StdEncoding, as used by the engine) -/

/-- Value of a standard-alphabet base64 character, `none` for characters
outside the alphabet (including `=`). -/
def b64Index (c : Char) : Option Nat :=
  if 'A' ≤ c ∧ c ≤ 'Z' then some (c.toNat - 65)
  else if 'a' ≤ c ∧ c ≤ 'z' then some (c.toNat - 97 + 26)
  else if '0' ≤ c ∧ c ≤ '9' then some (c.toNat - 48 + 52)
  else if c = '+' then some 62
  else if c = '/' then some 63
  else none

/-- Standard-alphabet character for a 6-bit value. -/
def b64Char (n : Nat) : Char :=
  if n < 26 then Char.ofNat (65 + n)
  else if n < 52 then Char.ofNat (97 + (n - 26))
  else if n < 62 then Char.ofNat (48 + (n - 52))
  else if n = 62 then '+'
  else '/'

/-- base64-encode a byte list, three bytes to four characters, padded
with `=`. -/
def base64EncodeGroups : List Nat → List Char
  | [] => []
  | [b0] => [b64Char (b0 / 4), b64Char (b0 % 4 * 16), '=', '=']
  | [b0, b1] =>
      [b64Char (b0 / 4), b64Char (b0 % 4 * 16 + b1 / 16), b64Char (b1 % 16 * 4), '=']
  | b0 :: b1 :: b2 :: rest =>
      b64Char (b0 / 4) :: b64Char (b0 % 4 * 16 + b1 / 16) ::
        b64Char (b1 % 16 * 4 + b2 / 64) :: b64Char (b2 % 64) :: base64EncodeGroups rest

/-- `base64.StdEncoding.EncodeToString`. -/
def base64Encode (bs : List Nat) : String :=
  String.mk (base64EncodeGroups bs)

/-- Decode four-character quanta; the final quantum may carry one or two
`=` padding characters.  Trailing padding bits are not checked
(`StdEncoding` is non-strict). -/
def base64DecodeGroups : List Char → Option (List Nat)
  | [] => some []
  | c0 :: c1 :: c2 :: c3 :: rest =>
      match b64Index c0, b64Index c1 with
      | some v0, some v1 =>
        if c2 = '=' then
          if c3 = '=' ∧ rest = [] then some [v0 * 4 + v1 / 16] else none
        else
          match b64Index c2 with
          | some v2 =>
            if c3 = '=' then
              if rest = [] then some [v0 * 4 + v1 / 16, v1 % 16 * 16 + v2 / 4] else none
            else
              match b64Index c3, base64DecodeGroups rest with
              | some v3, some bytes =>
                  some ((v0 * 4 + v1 / 16) :: (v1 % 16 * 16 + v2 / 4) ::
                    (v2 % 4 * 64 + v3) :: bytes)
              | _, _ => none
          | none => none
      | _, _ => none
  | _ => none

/-- `base64.StdEncoding.DecodeString`: ignores `\r` and `\n` anywhere,
then decodes; `none` is Go's `CorruptInputError`. -/
def base64Decode (s : String) : Option (List Nat) :=
  base64DecodeGroups (s.toList.filter (fun c => c ≠ '\n' ∧ c ≠ '\r'))

/-! ## Symbolic ed25519 (`crypto/ed25519`, external library) -/

/-- Byte value of a character of a message, reduced to a byte. -/
def msgBytes (msg : String) : List Nat :=
  msg.toList.map (fun c => c.toNat % 256)

/-- Symbolic `ed25519.Sign`: a deterministic function of the private key
and the message, producing signature bytes. -/
def edSign (priv : List Nat) (msg : String) : List Nat :=
  (priv.map (· % 256)) ++ msgBytes msg

/-- Symbolic public key of a private key.  In this model the public key
bytes determine the signing function, which is all the engine's claims
rely on. -/
def edPub (priv : List Nat) : List Nat :=
  priv.map (· % 256)

/-- Symbolic `ed25519.Verify`: succeeds exactly on the signature that the
key owner would have produced on this message. -/
def edVerify (pub sig : List Nat) (msg : String) : Bool :=
  sig == edSign pub msg

/-! ## Engine operations (`src/unnamed/part_000`, current `types/signature.go`) -/

/-- `SignatureKey.IncludesRole`.  Modelled from the spec: the method body
is not under `src/` (only its call site in `GenerateSignature` is); §4.1
fixes it as case-sensitive membership of `role` in the key's `Roles`. -/
def SignatureKey.IncludesRole (k : SignatureKey) (role : String) : Bool :=
  k.Roles.contains role

/-- `Invoice.IsAuthoredBy`: the membership loop over
`i.Bindle.Authors`. -/
def Invoice.IsAuthoredBy (i : Invoice) (author : String) : Bool :=
  i.Bindle.Authors.any (fun a => a == author)

/-- `Invoice.generateCleartext` of the current `types/signature.go`
(`src/unnamed/part_000`): first author, name, version, role, the `~`
separator, then one parcel SHA per line, joined by `"\n"`.  The
`timestamp` parameter is received but never used (the NOTE in the source
records that the `at` value was deliberately dropped from the cleartext).
`Authors[0]` on an authorless invoice is a Go index-out-of-range panic,
returned here as `none`. -/
def Invoice.generateCleartext (i : Invoice) (role : String) (timestamp : Int) :
    Option String :=
  match i.Bindle.Authors with
  | [] => none
  | a0 :: _ =>
      some (String.intercalate "\n"
        ([a0, i.Bindle.Name, i.Bindle.Version, role, "~"] ++
          i.Parcel.map (fun p => p.Label.SHA256)))

/-- `Invoice.GenerateSignature`: validates role, key/role provisioning and
authorship, builds the cleartext, signs it, and appends a `Signature`
record.  Returns the post-state of the invoice together with the call's
outcome; every early `return err` leaves the invoice as received. -/
def Invoice.GenerateSignature (i : Invoice) (author role : String)
    (sigKey : SignatureKey) (privKey : List Nat) (timestamp : Int) :
    Invoice × OpResult :=
  if ¬ roleIsValid role then (i, .err .errInvalidRole)
  else if ¬ sigKey.IncludesRole role then (i, .err .errSignatureKeyRoleMismatch)
  else if ¬ i.IsAuthoredBy author then (i, .err .errAuthorNotExist)
  else
    match i.generateCleartext role timestamp with
    | none => (i, .panicked)
    | some cleartext =>
      let sig := edSign privKey cleartext
      match base64Decode sigKey.Key with
      | none => (i, .err .decodingError)
      | some pubKey =>
        let signature : Bindle.Signature :=
          { By := author
            Signature := base64Encode sig
            Key := base64Encode pubKey
            Role := role
            At := timestamp }
        ({ i with Signature := i.Signature ++ [signature] }, .ok)

/-! ## Key generation (`keyring/keyring.go`) -/

/-- `keyring.GenerateSignatureKey`: validates the role, generates a key
pair and returns the public half wrapped in a `SignatureKey` together with
a self-signature over the author string; the private key is returned
separately.  The key pair drawn from `rand.Reader` is modelled by the
explicit `priv` parameter. -/
def GenerateSignatureKey (author role : String) (priv : List Nat) :
    Except BindleError (SignatureKey × List Nat) :=
  if ¬ roleIsValid role then .error .errInvalidRole
  else
    let pubString := base64Encode (edPub priv)
    let sigString := base64Encode (edSign priv author)
    .ok ({ Label := author
           Roles := [role]
           Key := pubString
           LabelSignature := sigString }, priv)

/-! ## Verification engine -/

/-- First trusted key whose encoded public key equals the given string. -/
def findTrustedKey (trustedKeys : List SignatureKey) (keyStr : String) :
    Option SignatureKey :=
  trustedKeys.find? (fun k => k.Key == keyStr)

/-- Modelled from the spec: `Invoice.VerifySignatures` is not under
`src/` (only its call sites in the integration tests are); this follows
§4.4 per signature: (1) locate a trusted key whose encoded public key
equals `s.Key`, else `UnknownKeyError`; (2) check the located key includes
`s.Role`, else `RoleMismatchError`; (3) re-derive the cleartext for
`(invoice, s.Role)`; (4) verify `s.Signature` against it with the public
key bytes from `s.Key`, else `InvalidSignatureError`; malformed base64 is
a `DecodingError`.  The timestamp argument of the cleartext builder is
unused, so `0` is passed. -/
def Invoice.verifyOne (i : Invoice) (trustedKeys : List SignatureKey)
    (s : Bindle.Signature) : OpResult :=
  match findTrustedKey trustedKeys s.Key with
  | none => .err .unknownKeyError
  | some k =>
    if ¬ k.IncludesRole s.Role then .err .errSignatureKeyRoleMismatch
    else
      match i.generateCleartext s.Role 0 with
      | none => .panicked
      | some cleartext =>
        match base64Decode s.Key, base64Decode s.Signature with
        | some pubBytes, some sigBytes =>
            if edVerify pubBytes sigBytes cleartext then .ok
            else .err .invalidSignatureError
        | _, _ => .err .decodingError

/-- Modelled from the spec: §4.4's loop over the signature list, failing
on the first unsatisfiable signature. -/
def Invoice.verifyAll (i : Invoice) (trustedKeys : List SignatureKey) :
    List Bindle.Signature → OpResult
  | [] => .ok
  | s :: rest =>
      match i.verifyOne trustedKeys s with
      | .ok => i.verifyAll trustedKeys rest
      | r => r

/-- Modelled from the spec: `Invoice.VerifySignatures` checks every
signature on the invoice against the trusted keys; an invoice with zero
signatures verifies trivially. -/
def Invoice.VerifySignatures (i : Invoice) (trustedKeys : List SignatureKey) :
    OpResult :=
  i.verifyAll trustedKeys i.Signature

/-! ## The spec's canonical cleartext, stated in its own words (§4.2)

These definitions follow the specification text, not the source, so that
the source's cleartext builder can be compared against them. -/

/-- Lines joined with a single newline character and no trailing
newline. -/
def joinLines : List String → String
  | [] => ""
  | [l] => l
  | l :: ls => l ++ "\n" ++ joinLines ls

/-- The cleartext as §4.2 lays it out: line 1 `invoice.Authors[0]`, line 2
the bindle name, line 3 the bindle version, line 4 the role, line 5 the
fixed separator `~`, then one parcel SHA256 per line in parcel-list
order. -/
def cleartextSpec (i : Invoice) (role : String) : String :=
  joinLines
    ([i.Bindle.Authors.headD "", i.Bindle.Name, i.Bindle.Version, role, "~"] ++
      i.Parcel.map (fun p => p.Label.SHA256))

/-! ## Concrete instances used by the closed theorems below -/

/-- Parcel label with digest `abc123` (spec §8's concrete scenario). -/
def abcLabel : Label :=
  { SHA256 := "abc123", MediaType := "", Name := "", Size := 0
    Annotations := [], Feature := [] }

/-- The spec §8 concrete invoice: `{Authors: ["Alice"], Name: "proj",
Version: "0.1.0", Parcel: [{SHA256: "abc123"}]}`. -/
def cInv : Invoice :=
  { BindleVersion := "1.0.0", Yanked := none
    Bindle := { Name := "proj", Version := "0.1.0", Description := none
                Authors := ["Alice"] }
    Annotations := [], Signature := [], Group := []
    Parcel := [{ Label := abcLabel, Conditions := none }] }

/-- A concrete private key. -/
def cPriv : List Nat := [1, 2, 3]

/-- The signature key matching `cPriv`, provisioned for `creator`
(as `GenerateSignatureKey "Alice" "creator"` would return it). -/
def cKey : SignatureKey :=
  { Label := "Alice", Roles := ["creator"]
    Key := base64Encode (edPub cPriv)
    LabelSignature := base64Encode (edSign cPriv "Alice") }

/-- A pre-existing signature whose `Key` is not valid base64 and matches
no trusted key. -/
def straySig : Signature :=
  { By := "Mallory", Signature := "", Key := "####", Role := "creator", At := 0 }

/-- The §8 invoice already carrying `straySig`. -/
def cInvStray : Invoice :=
  { cInv with Signature := [straySig] }

/-- A signing key whose `Key` string decodes (Go's decoder drops the
newline) but is not canonical base64. -/
def cKeyNewline : SignatureKey :=
  { Label := "Alice", Roles := ["creator"], Key := "AQ==\n", LabelSignature := "" }

/-- A trusted key provisioned for no role at all. -/
def cKeyNoRoles : SignatureKey :=
  { Label := "T", Roles := [], Key := "QQ==", LabelSignature := "" }

/-- A signature that names `cKeyNoRoles`'s public key with role
`creator`. -/
def cSigRoleless : Signature :=
  { By := "B", Signature := "", Key := "QQ==", Role := "creator", At := 0 }

/-- A signature whose `Key` matches no trusted key below. -/
def cSigUnknown : Signature :=
  { By := "U", Signature := "", Key := "Wg==", Role := "creator", At := 0 }

/-- Invoice whose first signature fails the role check and whose second
has an unknown key. -/
def cInvTwoSigs : Invoice :=
  { cInv with Signature := [cSigRoleless, cSigUnknown] }

/-- Invoice carrying only the unknown-key signature. -/
def cInvUnknownOnly : Invoice :=
  { cInv with Signature := [cSigUnknown] }

/-- The §8 invoice stripped of its author list. -/
def cInvNoAuthors : Invoice :=
  { cInv with Bindle := { cInv.Bindle with Authors := [] } }

/-! ## Base64 lemmas -/

theorem b64_fin_facts : ∀ n : Fin 64,
    b64Index (b64Char n.val) = some n.val ∧ b64Char n.val ≠ '=' ∧
      b64Char n.val ≠ '\n' ∧ b64Char n.val ≠ '\r' := by decide

theorem b64Index_b64Char {n : Nat} (h : n < 64) :
    b64Index (b64Char n) = some n :=
  (b64_fin_facts ⟨n, h⟩).1

theorem b64Char_ne_pad {n : Nat} (h : n < 64) : b64Char n ≠ '=' :=
  (b64_fin_facts ⟨n, h⟩).2.1

theorem b64Char_clean {n : Nat} (h : n < 64) :
    b64Char n ≠ '\n' ∧ b64Char n ≠ '\r' :=
  (b64_fin_facts ⟨n, h⟩).2.2

theorem mem_base64EncodeGroups_clean (bs : List Nat) (h : ∀ b ∈ bs, b < 256) :
    ∀ c ∈ base64EncodeGroups bs, c ≠ '\n' ∧ c ≠ '\r' := by
  induction bs using base64EncodeGroups.induct with
  | case1 => simp [base64EncodeGroups]
  | case2 b0 =>
      have hb0 : b0 < 256 := h b0 (by simp)
      intro c hc
      simp only [base64EncodeGroups, List.mem_cons, List.not_mem_nil, or_false] at hc
      rcases hc with rfl | rfl | rfl | rfl
      · exact b64Char_clean (by omega)
      · exact b64Char_clean (by omega)
      · exact ⟨by decide, by decide⟩
      · exact ⟨by decide, by decide⟩
  | case3 b0 b1 =>
      have hb0 : b0 < 256 := h b0 (by simp)
      have hb1 : b1 < 256 := h b1 (by simp)
      intro c hc
      simp only [base64EncodeGroups, List.mem_cons, List.not_mem_nil, or_false] at hc
      rcases hc with rfl | rfl | rfl | rfl
      · exact b64Char_clean (by omega)
      · exact b64Char_clean (by omega)
      · exact b64Char_clean (by omega)
      · exact ⟨by decide, by decide⟩
  | case4 b0 b1 b2 rest ih =>
      have hb0 : b0 < 256 := h b0 (by simp)
      have hb1 : b1 < 256 := h b1 (by simp)
      have hb2 : b2 < 256 := h b2 (by simp)
      intro c hc
      simp only [base64EncodeGroups, List.mem_cons] at hc
      rcases hc with rfl | rfl | rfl | rfl | hc
      · exact b64Char_clean (by omega)
      · exact b64Char_clean (by omega)
      · exact b64Char_clean (by omega)
      · exact b64Char_clean (by omega)
      · exact ih (fun b hb => h b (by simp [hb])) c hc

theorem base64DecodeGroups_encodeGroups (bs : List Nat) (h : ∀ b ∈ bs, b < 256) :
    base64DecodeGroups (base64EncodeGroups bs) = some bs := by
  induction bs using base64EncodeGroups.induct with
  | case1 => rfl
  | case2 b0 =>
      have hb0 : b0 < 256 := h b0 (by simp)
      simp [base64EncodeGroups, base64DecodeGroups,
        b64Index_b64Char (show b0 / 4 < 64 by omega),
        b64Index_b64Char (show b0 % 4 * 16 < 64 by omega)]
      omega
  | case3 b0 b1 =>
      have hb0 : b0 < 256 := h b0 (by simp)
      have hb1 : b1 < 256 := h b1 (by simp)
      simp [base64EncodeGroups, base64DecodeGroups,
        b64Index_b64Char (show b0 / 4 < 64 by omega),
        b64Index_b64Char (show b0 % 4 * 16 + b1 / 16 < 64 by omega),
        b64Index_b64Char (show b1 % 16 * 4 < 64 by omega),
        b64Char_ne_pad (show b1 % 16 * 4 < 64 by omega)]
      omega
  | case4 b0 b1 b2 rest ih =>
      have hb0 : b0 < 256 := h b0 (by simp)
      have hb1 : b1 < 256 := h b1 (by simp)
      have hb2 : b2 < 256 := h b2 (by simp)
      have hrest := ih (fun b hb => h b (by simp [hb]))
      simp [base64EncodeGroups, base64DecodeGroups,
        b64Index_b64Char (show b0 / 4 < 64 by omega),
        b64Index_b64Char (show b0 % 4 * 16 + b1 / 16 < 64 by omega),
        b64Index_b64Char (show b1 % 16 * 4 + b2 / 64 < 64 by omega),
        b64Index_b64Char (show b2 % 64 < 64 by omega),
        b64Char_ne_pad (show b1 % 16 * 4 + b2 / 64 < 64 by omega),
        b64Char_ne_pad (show b2 % 64 < 64 by omega), hrest]
      omega

theorem base64_decode_encode (bs : List Nat) (h : ∀ b ∈ bs, b < 256) :
    base64Decode (base64Encode bs) = some bs := by
  unfold base64Decode base64Encode
  have hfilter :
      (base64EncodeGroups bs).filter (fun c => decide (c ≠ '\n' ∧ c ≠ '\r')) =
        base64EncodeGroups bs := by
    rw [List.filter_eq_self]
    intro c hc
    exact decide_eq_true_eq.mpr (mem_base64EncodeGroups_clean bs h c hc)
  show base64DecodeGroups (List.filter _ (String.mk (base64EncodeGroups bs)).toList) = _
  rw [show (String.mk (base64EncodeGroups bs)).toList = base64EncodeGroups bs from rfl]
  rw [hfilter]
  exact base64DecodeGroups_encodeGroups bs h

/-! ## Symbolic ed25519 lemmas -/

theorem edPub_bytes_lt (priv : List Nat) : ∀ b ∈ edPub priv, b < 256 := by
  intro b hb
  simp only [edPub, List.mem_map] at hb
  obtain ⟨x, -, rfl⟩ := hb
  exact Nat.mod_lt _ (by omega)

theorem edSign_bytes_lt (priv : List Nat) (msg : String) :
    ∀ b ∈ edSign priv msg, b < 256 := by
  intro b hb
  simp only [edSign, msgBytes, List.mem_append, List.mem_map] at hb
  rcases hb with ⟨x, -, rfl⟩ | ⟨c, -, rfl⟩ <;> exact Nat.mod_lt _ (by omega)

theorem edSign_edPub (priv : List Nat) (msg : String) :
    edSign (edPub priv) msg = edSign priv msg := by
  simp only [edSign, edPub, List.map_map]
  congr 1
  exact List.map_congr_left (fun x _ => Nat.mod_mod_of_dvd _ (by norm_num))

/-! ## Role and author lemmas -/

theorem roleIsValid_iff (role : String) :
    roleIsValid role = true ↔
      role = RoleCreator ∨ role = RoleApprover ∨ role = RoleProxy ∨ role = RoleHost := by
  simp only [roleIsValid, ValidRoles, List.lookup]
  cases h1 : role == RoleCreator <;> cases h2 : role == RoleApprover <;>
    cases h3 : role == RoleProxy <;> cases h4 : role == RoleHost <;>
      simp only [h1, h2, h3, h4] <;>
        simp_all [beq_iff_eq, RoleCreator, RoleApprover, RoleProxy, RoleHost]

theorem isAuthoredBy_iff (i : Invoice) (author : String) :
    i.IsAuthoredBy author = true ↔ author ∈ i.Bindle.Authors := by
  simp [Invoice.IsAuthoredBy, List.any_eq_true]

/-! ## Cleartext lemmas -/

theorem joinLines_append_line (x a : String) (as : List String) :
    joinLines ((x ++ "\n" ++ a) :: as) = x ++ "\n" ++ joinLines (a :: as) := by
  cases as with
  | nil => rfl
  | cons b bs => simp [joinLines, String.append_assoc]

theorem intercalate_go_eq :
    ∀ (as : List String) (acc : String),
      String.intercalate.go acc "\n" as = joinLines (acc :: as) := by
  intro as
  induction as with
  | nil => intro acc; rfl
  | cons a as ih =>
      intro acc
      rw [show String.intercalate.go acc "\n" (a :: as) =
            String.intercalate.go (acc ++ "\n" ++ a) "\n" as from rfl]
      rw [ih, joinLines_append_line]
      rfl

theorem intercalate_eq_joinLines (ls : List String) :
    String.intercalate "\n" ls = joinLines ls := by
  cases ls with
  | nil => rfl
  | cons a as =>
      rw [show String.intercalate "\n" (a :: as) =
            String.intercalate.go a "\n" as from rfl]
      exact intercalate_go_eq as a

/-! ## Claim C1 -/

/-- C1 (amended): for every invoice with at least one author, the
cleartext produced by `generateCleartext` is exactly the spec's canonical
form — first author, name, version, role, `~`, then the parcel SHA256s in
list order, lines joined by a single newline with no trailing newline —
and on the spec's concrete scenario it is the 33-byte string
`"Alice\nproj\n0.1.0\ncreator\n~\nabc123"`. -/
theorem C1_cleartext_canonical :
    (∀ (i : Invoice) (role : String) (t : Int), i.Bindle.Authors ≠ [] →
        i.generateCleartext role t = some (cleartextSpec i role)) ∧
      cInv.generateCleartext "creator" 0 =
        some "Alice\nproj\n0.1.0\ncreator\n~\nabc123" ∧
      ("Alice\nproj\n0.1.0\ncreator\n~\nabc123" : String).length = 33 := by
  refine ⟨?_, by decide, by decide⟩
  intro i role t h
  match hA : i.Bindle.Authors with
  | [] => exact absurd hA h
  | a0 :: rest =>
      simp [Invoice.generateCleartext, hA, cleartextSpec,
        intercalate_eq_joinLines]

/-- C1 witness: the general formula evaluated on the spec's concrete
scenario. -/
theorem C1_cleartext_canonical_witness :
    cInv.Bindle.Authors ≠ [] ∧
      cInv.generateCleartext "creator" 0 = some (cleartextSpec cInv "creator") :=
  ⟨by decide, C1_cleartext_canonical.1 cInv "creator" 0 (by decide)⟩

/-- C1 counterexample: on the claim's own concrete invoice the cleartext
is the expected string, but its byte length is 33, not 34 as the claim
states. -/
theorem C1_cleartext_length_counterexample :
    cInv.generateCleartext "creator" 0 =
        some "Alice\nproj\n0.1.0\ncreator\n~\nabc123" ∧
      (cInv.generateCleartext "creator" 0).map String.length ≠ some 34 := by
  constructor <;> decide

/-! ## Claim C2 -/

/-- C2: the cleartext builder is deterministic and the signing timestamp
is not part of the cleartext: for a fixed `(invoice, role)` the result is
byte-identical for any two timestamps. -/
theorem C2_cleartext_deterministic :
    ∀ (i : Invoice) (role : String) (t₁ t₂ : Int),
      i.generateCleartext role t₁ = i.generateCleartext role t₂ :=
  fun _ _ _ _ => rfl

/-! ## GenerateSignature lemmas -/

theorem isAuthoredBy_nonempty {i : Invoice} {author : String}
    (h : i.IsAuthoredBy author = true) : i.Bindle.Authors ≠ [] := by
  intro hnil
  rw [isAuthoredBy_iff, hnil] at h
  exact absurd h (List.not_mem_nil _)

theorem generateCleartext_isSome {i : Invoice} (role : String) (t : Int)
    (h : i.Bindle.Authors ≠ []) :
    ∃ ct, i.generateCleartext role t = some ct := by
  cases hA : i.Bindle.Authors with
  | nil => exact absurd hA h
  | cons a0 rest =>
      refine ⟨String.intercalate "\n"
        ([a0, i.Bindle.Name, i.Bindle.Version, role, "~"] ++
          i.Parcel.map (fun p => p.Label.SHA256)), ?_⟩
      simp [Invoice.generateCleartext, hA]

theorem mem_roleList_iff (role : String) :
    role ∈ [RoleCreator, RoleApprover, RoleProxy, RoleHost] ↔
      roleIsValid role = true := by
  rw [roleIsValid_iff]
  simp

/-! ## Claim C4 -/

/-- C4: error precedence of `GenerateSignature`: `ErrInvalidRole` for a
role outside the closed set; otherwise `ErrSignatureKeyRoleMismatch` when
the signing key is not provisioned for the role; otherwise
`ErrAuthorNotExist` when the author is not on the invoice; and when all
three checks pass the call proceeds to sign (succeeding, or failing only
with the base64 `decodingError` on a malformed key). -/
theorem C4_error_precedence (i : Invoice) (author role : String)
    (sigKey : SignatureKey) (privKey : List Nat) (t : Int) :
    (role ∉ [RoleCreator, RoleApprover, RoleProxy, RoleHost] →
        (i.GenerateSignature author role sigKey privKey t).2 =
          .err .errInvalidRole) ∧
    (role ∈ [RoleCreator, RoleApprover, RoleProxy, RoleHost] →
      sigKey.IncludesRole role = false →
        (i.GenerateSignature author role sigKey privKey t).2 =
          .err .errSignatureKeyRoleMismatch) ∧
    (role ∈ [RoleCreator, RoleApprover, RoleProxy, RoleHost] →
      sigKey.IncludesRole role = true → i.IsAuthoredBy author = false →
        (i.GenerateSignature author role sigKey privKey t).2 =
          .err .errAuthorNotExist) ∧
    (role ∈ [RoleCreator, RoleApprover, RoleProxy, RoleHost] →
      sigKey.IncludesRole role = true → i.IsAuthoredBy author = true →
        (i.GenerateSignature author role sigKey privKey t).2 = .ok ∨
          (i.GenerateSignature author role sigKey privKey t).2 =
            .err .decodingError) := by
  refine ⟨fun hrole => ?_, fun hrole hk => ?_, fun hrole hk ha => ?_,
    fun hrole hk ha => ?_⟩
  · rw [mem_roleList_iff] at hrole
    simp only [Bool.not_eq_true] at hrole
    simp [Invoice.GenerateSignature, hrole]
  · rw [mem_roleList_iff] at hrole
    simp [Invoice.GenerateSignature, hrole, hk]
  · rw [mem_roleList_iff] at hrole
    simp [Invoice.GenerateSignature, hrole, hk, ha]
  · rw [mem_roleList_iff] at hrole
    obtain ⟨ct, hct⟩ := generateCleartext_isSome role t (isAuthoredBy_nonempty ha)
    cases hpub : base64Decode sigKey.Key with
    | none => right; simp [Invoice.GenerateSignature, hrole, hk, ha, hct, hpub]
    | some pub => left; simp [Invoice.GenerateSignature, hrole, hk, ha, hct, hpub]

/-- C4 witness: the precedence theorem evaluated concretely — the role
`chief` is outside the closed set and yields `ErrInvalidRole`. -/
theorem C4_error_precedence_witness :
    ("chief" ∉ [RoleCreator, RoleApprover, RoleProxy, RoleHost]) ∧
      (cInv.GenerateSignature "Alice" "chief" cKey cPriv 0).2 =
        .err .errInvalidRole :=
  ⟨by decide, (C4_error_precedence cInv "Alice" "chief" cKey cPriv 0).1 (by decide)⟩

/-! ## Claim C5 -/

/-- C5: signing is purely additive — on success the signature list of the
returned invoice is the old list with exactly one record appended, and
every other field of the invoice is unchanged. -/
theorem C5_signing_additive (i : Invoice) (author role : String)
    (sigKey : SignatureKey) (privKey : List Nat) (t : Int)
    (h : (i.GenerateSignature author role sigKey privKey t).2 = .ok) :
    (∃ s, (i.GenerateSignature author role sigKey privKey t).1.Signature =
        i.Signature ++ [s]) ∧
      (i.GenerateSignature author role sigKey privKey t).1.BindleVersion =
        i.BindleVersion ∧
      (i.GenerateSignature author role sigKey privKey t).1.Yanked = i.Yanked ∧
      (i.GenerateSignature author role sigKey privKey t).1.Bindle = i.Bindle ∧
      (i.GenerateSignature author role sigKey privKey t).1.Annotations =
        i.Annotations ∧
      (i.GenerateSignature author role sigKey privKey t).1.Parcel = i.Parcel ∧
      (i.GenerateSignature author role sigKey privKey t).1.Group = i.Group := by
  by_cases hv : roleIsValid role = true
  · by_cases hk : sigKey.IncludesRole role = true
    · by_cases ha : i.IsAuthoredBy author = true
      · obtain ⟨ct, hct⟩ :=
          generateCleartext_isSome role t (isAuthoredBy_nonempty ha)
        cases hpub : base64Decode sigKey.Key with
        | none => simp [Invoice.GenerateSignature, hv, hk, ha, hct, hpub] at h
        | some pub =>
            simp [Invoice.GenerateSignature, hv, hk, ha, hct, hpub]
      · simp [Invoice.GenerateSignature, hv, hk, ha] at h
    · simp [Invoice.GenerateSignature, hv, hk] at h
  · simp [Invoice.GenerateSignature, hv] at h

/-- C5 witness: a concrete successful signing call appends exactly one
signature and leaves every other field alone. -/
theorem C5_signing_additive_witness :
    (cInv.GenerateSignature "Alice" "creator" cKey cPriv 7).2 = .ok ∧
      ((∃ s, (cInv.GenerateSignature "Alice" "creator" cKey cPriv 7).1.Signature =
          cInv.Signature ++ [s]) ∧
        (cInv.GenerateSignature "Alice" "creator" cKey cPriv 7).1.BindleVersion =
          cInv.BindleVersion ∧
        (cInv.GenerateSignature "Alice" "creator" cKey cPriv 7).1.Yanked =
          cInv.Yanked ∧
        (cInv.GenerateSignature "Alice" "creator" cKey cPriv 7).1.Bindle =
          cInv.Bindle ∧
        (cInv.GenerateSignature "Alice" "creator" cKey cPriv 7).1.Annotations =
          cInv.Annotations ∧
        (cInv.GenerateSignature "Alice" "creator" cKey cPriv 7).1.Parcel =
          cInv.Parcel ∧
        (cInv.GenerateSignature "Alice" "creator" cKey cPriv 7).1.Group =
          cInv.Group) :=
  ⟨by decide, C5_signing_additive cInv "Alice" "creator" cKey cPriv 7 (by decide)⟩

/-! ## Claim C6 -/

/-- C6 (amended): on every successful call the appended record carries
`By = author`, `Role = role`, `At = timestamp`, `Signature` the base64
encoding of the signature produced by `privKey` over the cleartext of
`(invoice, role)`, and `Key` the base64 re-encoding of the bytes decoded
from `signingKey.Key` (equal to `signingKey.Key` itself exactly when that
string is canonical base64, as the keys produced by
`GenerateSignatureKey` are). -/
theorem C6_signature_record_fields (i : Invoice) (author role : String)
    (sigKey : SignatureKey) (privKey : List Nat) (t : Int)
    (h : (i.GenerateSignature author role sigKey privKey t).2 = .ok) :
    ∃ ct pub, i.generateCleartext role t = some ct ∧
      base64Decode sigKey.Key = some pub ∧
      (i.GenerateSignature author role sigKey privKey t).1.Signature =
        i.Signature ++
          [{ By := author
             Signature := base64Encode (edSign privKey ct)
             Key := base64Encode pub
             Role := role
             At := t }] := by
  by_cases hv : roleIsValid role = true
  · by_cases hk : sigKey.IncludesRole role = true
    · by_cases ha : i.IsAuthoredBy author = true
      · obtain ⟨ct, hct⟩ :=
          generateCleartext_isSome role t (isAuthoredBy_nonempty ha)
        cases hpub : base64Decode sigKey.Key with
        | none => simp [Invoice.GenerateSignature, hv, hk, ha, hct, hpub] at h
        | some pub =>
            exact ⟨ct, pub, hct, rfl,
              by simp [Invoice.GenerateSignature, hv, hk, ha, hct, hpub]⟩
      · simp [Invoice.GenerateSignature, hv, hk, ha] at h
    · simp [Invoice.GenerateSignature, hv, hk] at h
  · simp [Invoice.GenerateSignature, hv] at h

/-- C6 witness: the amended field description evaluated on a concrete
successful call. -/
theorem C6_signature_record_fields_witness :
    (cInv.GenerateSignature "Alice" "creator" cKey cPriv 7).2 = .ok ∧
      ∃ ct pub, cInv.generateCleartext "creator" 7 = some ct ∧
        base64Decode cKey.Key = some pub ∧
        (cInv.GenerateSignature "Alice" "creator" cKey cPriv 7).1.Signature =
          cInv.Signature ++
            [{ By := "Alice"
               Signature := base64Encode (edSign cPriv ct)
               Key := base64Encode pub
               Role := "creator"
               At := 7 }] :=
  ⟨by decide, C6_signature_record_fields cInv "Alice" "creator" cKey cPriv 7
    (by decide)⟩

/-- C6 counterexample: with the decodable but non-canonical key string
`"AQ==\n"` (Go's base64 decoder ignores the newline) the call succeeds,
yet the appended record's `Key` is `"AQ=="`, not the `signingKey.Key` the
claim promises. -/
theorem C6_key_reencoding_counterexample :
    (cInv.GenerateSignature "Alice" "creator" cKeyNewline cPriv 7).2 = .ok ∧
      (cInv.GenerateSignature "Alice" "creator" cKeyNewline cPriv 7).1.Signature.map
          Signature.Key = ["AQ=="] ∧
      ("AQ==" : String) ≠ cKeyNewline.Key := by
  refine ⟨by decide, by decide, by decide⟩

/-! ## Claim C8 -/

/-- C8: atomicity on error — whenever `GenerateSignature` returns an
error, the invoice is left exactly as it was; in particular nothing is
appended to its signature list. -/
theorem C8_error_atomicity (i : Invoice) (author role : String)
    (sigKey : SignatureKey) (privKey : List Nat) (t : Int) (e : BindleError)
    (h : (i.GenerateSignature author role sigKey privKey t).2 = .err e) :
    (i.GenerateSignature author role sigKey privKey t).1 = i := by
  by_cases hv : roleIsValid role = true
  · by_cases hk : sigKey.IncludesRole role = true
    · by_cases ha : i.IsAuthoredBy author = true
      · obtain ⟨ct, hct⟩ :=
          generateCleartext_isSome role t (isAuthoredBy_nonempty ha)
        cases hpub : base64Decode sigKey.Key with
        | none => simp [Invoice.GenerateSignature, hv, hk, ha, hct, hpub]
        | some pub => simp [Invoice.GenerateSignature, hv, hk, ha, hct, hpub] at h
      · simp [Invoice.GenerateSignature, hv, hk, ha]
    · simp [Invoice.GenerateSignature, hv, hk]
  · simp [Invoice.GenerateSignature, hv]

/-- C8 witness: a malformed-role call leaves the concrete invoice
untouched. -/
theorem C8_error_atomicity_witness :
    (cInv.GenerateSignature "Alice" "chief" cKey cPriv 0).2 =
        .err .errInvalidRole ∧
      (cInv.GenerateSignature "Alice" "chief" cKey cPriv 0).1 = cInv :=
  ⟨by decide, C8_error_atomicity cInv "Alice" "chief" cKey cPriv 0
    .errInvalidRole (by decide)⟩

/-! ## Claim C9 -/

/-- C9: `GenerateSignatureKey` fails with `ErrInvalidRole` outside the
closed role set; inside it, it returns a `SignatureKey` labelled with the
author, provisioned exactly for the requested role, carrying the base64
encoding of the fresh public key and a base64 self-signature over the raw
author string, with the private key returned separately (the
`SignatureKey` record has no private-key field). -/
theorem C9_generate_signature_key (author role : String) (priv : List Nat) :
    (role ∉ [RoleCreator, RoleApprover, RoleProxy, RoleHost] →
        GenerateSignatureKey author role priv = .error .errInvalidRole) ∧
    (role ∈ [RoleCreator, RoleApprover, RoleProxy, RoleHost] →
        GenerateSignatureKey author role priv =
          .ok ({ Label := author
                 Roles := [role]
                 Key := base64Encode (edPub priv)
                 LabelSignature := base64Encode (edSign priv author) }, priv)) := by
  constructor
  · intro hrole
    rw [mem_roleList_iff] at hrole
    simp only [Bool.not_eq_true] at hrole
    simp [GenerateSignatureKey, hrole]
  · intro hrole
    rw [mem_roleList_iff] at hrole
    simp [GenerateSignatureKey, hrole]

/-- C9 witness: both halves evaluated concretely — an invalid role is
rejected, and a valid one yields exactly the described key record. -/
theorem C9_generate_signature_key_witness :
    (("chief" ∉ [RoleCreator, RoleApprover, RoleProxy, RoleHost]) ∧
        GenerateSignatureKey "Alice" "chief" cPriv = .error .errInvalidRole) ∧
      (("creator" ∈ [RoleCreator, RoleApprover, RoleProxy, RoleHost]) ∧
        GenerateSignatureKey "Alice" "creator" cPriv =
          .ok ({ Label := "Alice"
                 Roles := ["creator"]
                 Key := base64Encode (edPub cPriv)
                 LabelSignature := base64Encode (edSign cPriv "Alice") }, cPriv)) :=
  ⟨⟨by decide, (C9_generate_signature_key "Alice" "chief" cPriv).1 (by decide)⟩,
    ⟨by decide, (C9_generate_signature_key "Alice" "creator" cPriv).2 (by decide)⟩⟩

/-! ## Claim C10 -/

/-- C10: `GenerateSignature` never reaches the out-of-bounds
`Authors[0]` access: the author-presence check precedes cleartext
construction, and its success implies a non-empty author list, so no
input — author-less invoices included — makes the call panic. -/
theorem C10_no_panic (i : Invoice) (author role : String)
    (sigKey : SignatureKey) (privKey : List Nat) (t : Int) :
    (i.GenerateSignature author role sigKey privKey t).2 ≠ .panicked := by
  by_cases hv : roleIsValid role = true
  · by_cases hk : sigKey.IncludesRole role = true
    · by_cases ha : i.IsAuthoredBy author = true
      · obtain ⟨ct, hct⟩ :=
          generateCleartext_isSome role t (isAuthoredBy_nonempty ha)
        cases hpub : base64Decode sigKey.Key with
        | none => simp [Invoice.GenerateSignature, hv, hk, ha, hct, hpub]
        | some pub => simp [Invoice.GenerateSignature, hv, hk, ha, hct, hpub]
      · simp [Invoice.GenerateSignature, hv, hk, ha]
    · simp [Invoice.GenerateSignature, hv, hk]
  · simp [Invoice.GenerateSignature, hv]

/-- C10 witness: the no-panic theorem evaluated on an author-less invoice,
where the call returns `ErrAuthorNotExist` instead of faulting. -/
theorem C10_no_panic_witness :
    cInvNoAuthors.GenerateSignature "Alice" "creator" cKey cPriv 0 =
      (cInvNoAuthors, .err .errAuthorNotExist) ∧
      (cInvNoAuthors.GenerateSignature "Alice" "creator" cKey cPriv 0).2 ≠
        .panicked :=
  ⟨by decide, C10_no_panic cInvNoAuthors "Alice" "creator" cKey cPriv 0⟩

/-! ## Verification lemmas -/

theorem verifyOne_signature_frame (i : Invoice) (sigs : List Bindle.Signature)
    (ks : List SignatureKey) (s : Bindle.Signature) :
    ({ i with Signature := sigs } : Invoice).verifyOne ks s = i.verifyOne ks s :=
  rfl

theorem verifyAll_signature_frame (i : Invoice) (sigs : List Bindle.Signature)
    (ks : List SignatureKey) (l : List Bindle.Signature) :
    ({ i with Signature := sigs } : Invoice).verifyAll ks l = i.verifyAll ks l := by
  induction l with
  | nil => rfl
  | cons s rest ih =>
      cases h : i.verifyOne ks s <;>
        simp [Invoice.verifyAll, verifyOne_signature_frame, h, ih]

theorem verifyAll_append_ok (i : Invoice) (ks : List SignatureKey)
    (l1 l2 : List Bindle.Signature) (h : i.verifyAll ks l1 = .ok) :
    i.verifyAll ks (l1 ++ l2) = i.verifyAll ks l2 := by
  induction l1 with
  | nil => rfl
  | cons s rest ih =>
      cases hs : i.verifyOne ks s with
      | ok =>
          simp only [Invoice.verifyAll, hs] at h
          simp only [List.cons_append, Invoice.verifyAll, hs]
          exact ih h
      | err e => simp [Invoice.verifyAll, hs] at h
      | panicked => simp [Invoice.verifyAll, hs] at h

theorem verify_after_append (i : Invoice) (ks : List SignatureKey)
    (hprev : i.VerifySignatures ks = .ok)
    (s : Bindle.Signature) (hone : i.verifyOne ks s = .ok) :
    ({ i with Signature := i.Signature ++ [s] } : Invoice).VerifySignatures ks =
      .ok := by
  unfold Invoice.VerifySignatures at *
  rw [show ({ i with Signature := i.Signature ++ [s] } : Invoice).Signature =
        i.Signature ++ [s] from rfl]
  rw [verifyAll_signature_frame, verifyAll_append_ok i ks i.Signature [s] hprev]
  simp [Invoice.verifyAll, hone]

theorem verifyAll_unknown (i : Invoice) (ks : List SignatureKey)
    (l1 : List Bindle.Signature) (s : Bindle.Signature)
    (l2 : List Bindle.Signature) (hs : findTrustedKey ks s.Key = none) :
    i.verifyAll ks (l1 ++ s :: l2) ≠ .ok ∧
      ((∀ s' ∈ l1, i.verifyOne ks s' = .ok) →
        i.verifyAll ks (l1 ++ s :: l2) = .err .unknownKeyError) := by
  induction l1 with
  | nil =>
      have h1 : i.verifyOne ks s = .err .unknownKeyError := by
        simp [Invoice.verifyOne, hs]
      exact ⟨by simp [Invoice.verifyAll, h1], fun _ => by
        simp [Invoice.verifyAll, h1]⟩
  | cons s' rest ih =>
      constructor
      · cases hs' : i.verifyOne ks s' with
        | ok => simpa [Invoice.verifyAll, hs'] using ih.1
        | err e => simp [Invoice.verifyAll, hs']
        | panicked => simp [Invoice.verifyAll, hs']
      · intro hall
        have hok : i.verifyOne ks s' = .ok := hall s' (by simp)
        have hrest : ∀ x ∈ rest, i.verifyOne ks x = .ok := fun x hx =>
          hall x (by simp [hx])
        simp only [List.cons_append, Invoice.verifyAll, hok]
        exact ih.2 hrest

/-! ## Claim C3 -/

/-- C3 (amended): signing then verifying round-trips, provided — beyond
the claim's own hypotheses (a declared author, a role in the closed set, a
key provisioned for that role forming a pair with the private key, and a
trusted-key set containing it) — every signature already on the invoice
verifies against the trusted-key set, and every trusted key carrying the
signing key's encoded public key is provisioned for the role. -/
theorem C3_sign_verify_roundtrip (i : Invoice) (author role : String)
    (sigKey : SignatureKey) (privKey : List Nat) (t : Int)
    (ks : List SignatureKey)
    (hrole : role ∈ [RoleCreator, RoleApprover, RoleProxy, RoleHost])
    (hauthor : author ∈ i.Bindle.Authors)
    (hk : sigKey.IncludesRole role = true)
    (hpair : sigKey.Key = base64Encode (edPub privKey))
    (hmem : sigKey ∈ ks)
    (hks : ∀ k ∈ ks, k.Key = sigKey.Key → k.IncludesRole role = true)
    (hprev : i.VerifySignatures ks = .ok) :
    (i.GenerateSignature author role sigKey privKey t).2 = .ok ∧
      (i.GenerateSignature author role sigKey privKey t).1.VerifySignatures ks =
        .ok := by
  have hv : roleIsValid role = true := (mem_roleList_iff role).mp hrole
  have ha : i.IsAuthoredBy author = true := (isAuthoredBy_iff i author).mpr hauthor
  obtain ⟨ct, hct⟩ := generateCleartext_isSome role t (by
    intro hnil; rw [hnil] at hauthor; exact absurd hauthor (List.not_mem_nil _))
  have hdec : base64Decode sigKey.Key = some (edPub privKey) := by
    rw [hpair]; exact base64_decode_encode _ (edPub_bytes_lt privKey)
  have hgen : i.GenerateSignature author role sigKey privKey t =
      ({ i with Signature := i.Signature ++
          [{ By := author
             Signature := base64Encode (edSign privKey ct)
             Key := base64Encode (edPub privKey)
             Role := role
             At := t }] }, .ok) := by
    simp [Invoice.GenerateSignature, hv, hk, ha, hct, hdec]
  have hfindsome :
      (ks.find? (fun k => k.Key == base64Encode (edPub privKey))).isSome := by
    refine List.find?_isSome.mpr ⟨sigKey, hmem, ?_⟩
    simp [hpair]
  obtain ⟨k0, hk0⟩ := Option.isSome_iff_exists.mp hfindsome
  have hk0key : k0.Key = sigKey.Key := by
    have := List.find?_some hk0
    rw [hpair]
    exact beq_iff_eq.mp this
  have hk0role : k0.IncludesRole role = true :=
    hks k0 (List.mem_of_find?_eq_some hk0) hk0key
  have hone : i.verifyOne ks
      { By := author
        Signature := base64Encode (edSign privKey ct)
        Key := base64Encode (edPub privKey)
        Role := role
        At := t } = .ok := by
    have hct0 : i.generateCleartext role 0 = some ct := hct
    simp only [Invoice.verifyOne, findTrustedKey]
    rw [hk0]
    simp [hk0role, hct0,
      base64_decode_encode _ (edPub_bytes_lt privKey),
      base64_decode_encode _ (edSign_bytes_lt privKey ct),
      edVerify, edSign_edPub]
  exact ⟨by rw [hgen], by rw [hgen]; exact verify_after_append i ks hprev _ hone⟩

/-- C3 witness: the round-trip evaluated on the spec §8 scenario — a fresh
invoice signed by its declared author with a creator-provisioned key pair
verifies against the trusted set containing exactly that key. -/
theorem C3_sign_verify_roundtrip_witness :
    (cInv.GenerateSignature "Alice" "creator" cKey cPriv 5).2 = .ok ∧
      (cInv.GenerateSignature "Alice" "creator" cKey cPriv 5).1.VerifySignatures
        [cKey] = .ok :=
  C3_sign_verify_roundtrip cInv "Alice" "creator" cKey cPriv 5 [cKey]
    (by decide) (by decide) (by decide) rfl (by simp)
    (by intro k hkmem hkey
        simp only [List.mem_singleton] at hkmem
        subst hkmem
        decide)
    (by decide)

/-- C3 counterexample: the claim as stated fails when the invoice already
carries a signature that cannot verify — `GenerateSignature` succeeds on
`cInvStray` (which meets every hypothesis of the claim), yet
`VerifySignatures` with the trusted set containing the signing key
errors on the stray pre-existing signature. -/
theorem C3_roundtrip_counterexample :
    (cInvStray.GenerateSignature "Alice" "creator" cKey cPriv 0).2 = .ok ∧
      (cInvStray.GenerateSignature "Alice" "creator" cKey cPriv 0).1.VerifySignatures
          [cKey] ≠ .ok := by
  constructor <;> decide

/-! ## Claim C7 -/

/-- C7 (amended): an invoice carrying a signature whose `Key` matches no
trusted key never verifies; the failure is `UnknownKeyError` exactly when
every signature preceding the unknown-key one passes its checks (in
particular when it is the first signature) — an earlier signature may fail
first with a different error. -/
theorem C7_unknown_signer_rejection (i : Invoice) (ks : List SignatureKey)
    (l1 : List Bindle.Signature) (s : Bindle.Signature)
    (l2 : List Bindle.Signature)
    (hsplit : i.Signature = l1 ++ s :: l2)
    (hs : findTrustedKey ks s.Key = none) :
    i.VerifySignatures ks ≠ .ok ∧
      ((∀ s' ∈ l1, i.verifyOne ks s' = .ok) →
        i.VerifySignatures ks = .err .unknownKeyError) := by
  unfold Invoice.VerifySignatures
  rw [hsplit]
  exact verifyAll_unknown i ks l1 s l2 hs

/-- C7 witness: an invoice whose only signature names an untrusted key
fails verification with `UnknownKeyError`. -/
theorem C7_unknown_signer_rejection_witness :
    cInvUnknownOnly.VerifySignatures [cKeyNoRoles] ≠ .ok ∧
      cInvUnknownOnly.VerifySignatures [cKeyNoRoles] = .err .unknownKeyError := by
  have h := C7_unknown_signer_rejection cInvUnknownOnly [cKeyNoRoles] []
    cSigUnknown [] (by decide) (by decide)
  exact ⟨h.1, h.2 (by simp)⟩

/-- C7 counterexample: `cInvTwoSigs` carries a signature with an unknown
key, yet `VerifySignatures` fails with `RoleMismatchError` — the earlier
signature's key is trusted but not provisioned for its role, and the
engine fails on the first unsatisfiable signature. -/
theorem C7_unknown_signer_counterexample :
    cSigUnknown ∈ cInvTwoSigs.Signature ∧
      findTrustedKey [cKeyNoRoles] cSigUnknown.Key = none ∧
      cInvTwoSigs.VerifySignatures [cKeyNoRoles] =
        .err .errSignatureKeyRoleMismatch ∧
      OpResult.err BindleError.errSignatureKeyRoleMismatch ≠
        OpResult.err BindleError.unknownKeyError := by
  refine ⟨by decide, by decide, by decide, by decide⟩

end Bindle
